import Mathlib

/-!
# Verification of the number-fetcher backend core

Shallow embedding of the core services of the repository
(`services/timer_service.py`, `services/profile_service.py`,
`services/range_service.py`, `services/external_api.py`,
`routers/admin.py`) and proofs of the specification claims about them.

The relational store backing the services is modelled as in-memory state:
the `configurations` table as an association list keyed by `key`, the
`number_ranges` table and the `api_profiles` table as lists of rows.
`datetime.utcnow()` values are threaded in as explicit parameters.
Fallible Python paths (list index errors, HTTP and JSON failures) are
modelled with `Except`/`Option`, so "never raises" facts are statable.
-/

/-! ## Python `datetime.strptime` with format `"%Y-%m-%d %H:%M:%S"` -/

/-- A parsed timestamp, as produced by `datetime.strptime`. -/
structure PyDatetime where
  year : Nat
  month : Nat
  day : Nat
  hour : Nat
  minute : Nat
  second : Nat
deriving DecidableEq

/-- Injective numeric key of a timestamp; comparing keys is comparing
timestamps chronologically (mixed-radix encoding). -/
def PyDatetime.key (d : PyDatetime) : Nat :=
  ((((d.year * 13 + d.month) * 32 + d.day) * 24 + d.hour) * 60 + d.minute) * 60 + d.second

def isLeapYear (y : Nat) : Bool :=
  (y % 4 == 0 && y % 100 != 0) || (y % 400 == 0)

def daysInMonth (y m : Nat) : Nat :=
  if m = 2 then (if isLeapYear y then 29 else 28)
  else if m = 4 ∨ m = 6 ∨ m = 9 ∨ m = 11 then 30
  else 31

def digitVal (c : Char) : Nat := c.toNat - 48

/-- Consume exactly `n` decimal digits, returning their value and the rest. -/
def takeExactDigits : Nat → Nat → List Char → Option (Nat × List Char)
  | 0, acc, cs => some (acc, cs)
  | n + 1, acc, c :: cs =>
    if c.isDigit then takeExactDigits n (acc * 10 + digitVal c) cs else none
  | _ + 1, _, [] => none

/-- Consume one or, greedily, two decimal digits (the `strptime` behaviour of
`%m`, `%d`, `%H`, `%M`, `%S`, which accept non-zero-padded values). -/
def takeOneTwoDigits : List Char → Option (Nat × List Char)
  | c :: d :: cs =>
    if c.isDigit then
      if d.isDigit then some (digitVal c * 10 + digitVal d, cs)
      else some (digitVal c, d :: cs)
    else none
  | [c] => if c.isDigit then some (digitVal c, []) else none
  | [] => none

def expectChar (ch : Char) : List Char → Option (List Char)
  | c :: cs => if c = ch then some cs else none
  | [] => none

/-- Model of `datetime.strptime(s, "%Y-%m-%d %H:%M:%S")`: four-digit year, one- or
two-digit month/day/hour/minute/second with the separators of the format,
whole string consumed, calendar-validated (month 1–12, day within the
month incl. leap years, hour ≤ 23, minute and second ≤ 59); `none` models
the `ValueError` raised on any other input. -/
def parseStrptimeYmdHMS (s : String) : Option PyDatetime := do
  let cs := s.toList
  let (y, cs) ← takeExactDigits 4 0 cs
  let cs ← expectChar '-' cs
  let (mo, cs) ← takeOneTwoDigits cs
  let cs ← expectChar '-' cs
  let (d, cs) ← takeOneTwoDigits cs
  let cs ← expectChar ' ' cs
  let (h, cs) ← takeOneTwoDigits cs
  let cs ← expectChar ':' cs
  let (mi, cs) ← takeOneTwoDigits cs
  let cs ← expectChar ':' cs
  let (sec, cs) ← takeOneTwoDigits cs
  if cs = [] ∧ 1 ≤ mo ∧ mo ≤ 12 ∧ 1 ≤ d ∧ d ≤ daysInMonth y mo ∧
      h ≤ 23 ∧ mi ≤ 59 ∧ sec ≤ 59 then
    some ⟨y, mo, d, h, mi, sec⟩
  else none

/-! ## Data model: `number_ranges` and `configurations` rows -/

/-- A row of the `number_ranges` table (`models.NumberRange`); `updated_at`
is an abstract clock value, `extra_data` an uninterpreted JSON blob. -/
structure NumberRange where
  id : Nat
  range_value : String
  category : String
  updated_at : Nat
  extra_data : Option String
deriving DecidableEq

/-- The value of the `current_range` configuration entry written by
`TimerService.cycle_ranges`. -/
structure CurrentRangeVal where
  current_range : String
  category : String
  updated_at : String
deriving DecidableEq

/-- The value of a `f"{category}_cycle_index"` configuration entry written by
`TimerService.cycle_ranges`. -/
structure CycleIndexVal where
  index : Nat
  updated_at : String
deriving DecidableEq

/-- The value of the `timer_status` configuration entry; `none` fields model
keys absent from the stored JSON dict (`start_timer` writes `started_at` and
`next_cycle` but no `stopped_at`; `stop_timer` the converse). -/
structure TimerStatusVal where
  active : Bool
  category : Option String
  interval_minutes : Int
  started_at : Option String
  stopped_at : Option String
  next_cycle : Option String
deriving DecidableEq

/-- JSON values this program stores in the `configurations` table. -/
inductive ConfigValue
  | timer (v : TimerStatusVal)
  | currentRange (v : CurrentRangeVal)
  | cycleIndex (v : CycleIndexVal)
deriving DecidableEq

/-- The `configurations` table: unique `key` → JSON `value`. -/
abbrev Configs := List (String × ConfigValue)

/-- Row lookup by key (`select(Configuration).where(Configuration.key == k)`,
`scalar_one_or_none`). -/
def configGet (cs : Configs) (k : String) : Option ConfigValue :=
  (List.find? (fun p => p.1 = k) cs).map Prod.snd

/-- Upsert: `config.value = v` when the row exists, else
`db.add(Configuration(key=k, value=v))`. -/
def configSet (cs : Configs) (k : String) (v : ConfigValue) : Configs :=
  if List.any cs (fun p => p.1 = k) then
    List.map (fun p => if p.1 = k then (k, v) else p) cs
  else cs ++ [(k, v)]

/-! ## `services/timer_service.py` -/

/-- The database state the timer service touches. -/
structure TimerState where
  configs : Configs
  ranges : List NumberRange
deriving DecidableEq

/-- Result value of `start_timer` / `stop_timer`. -/
structure TimerResult where
  success : Bool
  message : String
deriving DecidableEq

/-- Embeds `RangeService.get_category_ranges`: rows of the category, ordered by
`updated_at` descending (stable among ties). -/
def get_category_ranges (rows : List NumberRange) (category : String) :
    List NumberRange :=
  List.insertionSort (fun a b => b.updated_at ≤ a.updated_at)
    (List.filter (fun r => r.category = category) rows)

/-- Embeds `TimerService.get_status`: the stored `timer_status` value, or the
documented default when the row is absent. -/
def get_status (st : TimerState) : TimerStatusVal :=
  match configGet st.configs "timer_status" with
  | some (.timer v) => v
  | _ => ⟨false, none, 0, none, none, none⟩

/-- Embeds `TimerService.stop_timer`: overwrite the single `timer_status` entry
with an inactive record carrying `stopped_at = now`. -/
def stop_timer (st : TimerState) (category : String) (now : String) :
    TimerState × TimerResult :=
  let v : TimerStatusVal := ⟨false, none, 0, none, some now, none⟩
  ({ st with configs := configSet st.configs "timer_status" (.timer v) },
   ⟨true, "Timer stopped for " ++ category⟩)

/-- Embeds `TimerService.start_timer`: first runs `stop_timer`, then overwrites the
single `timer_status` entry with an active record for `category`
(`started_at = now`, `next_cycle = now + interval`, passed in as
`nextCycle`). -/
def start_timer (st : TimerState) (category : String) (interval : Int)
    (now nextCycle : String) : TimerState × TimerResult :=
  let st1 := (stop_timer st category now).1
  let v : TimerStatusVal := ⟨true, some category, interval, some now, none, some nextCycle⟩
  ({ st1 with configs := configSet st1.configs "timer_status" (.timer v) },
   ⟨true, "Timer started for " ++ category⟩)

/-- Model of `config.value.get("index", 0)` on the `f"{category}_cycle_index"` row:
0 when the row is absent (or holds no `index` field). -/
def readCycleIndex (cs : Configs) (category : String) : Nat :=
  match configGet cs (category ++ "_cycle_index") with
  | some (.cycleIndex v) => v.index
  | _ => 0

/-- Embeds `TimerService.cycle_ranges`. Python list indexing is modelled with
`List.get?`; an out-of-bounds access is the `.error "IndexError"` branch,
so provable absence of that branch is provable absence of `IndexError`. -/
def cycle_ranges (st : TimerState) (category : String) (now : String) :
    Except String (Option String × TimerState) :=
  let ranges := get_category_ranges st.ranges category
  if ranges.isEmpty then .ok (none, st)
  else
    let i0 := readCycleIndex st.configs category
    let i := if ranges.length ≤ i0 then 0 else i0
    match ranges.get? i with
    | none => .error "IndexError"
    | some r =>
      let cs1 := configSet st.configs "current_range"
        (.currentRange ⟨r.range_value, category, now⟩)
      let cs2 := configSet cs1 (category ++ "_cycle_index")
        (.cycleIndex ⟨i + 1, now⟩)
      .ok (some r.range_value, { st with configs := cs2 })

/-- The selected value of a `cycle_ranges` outcome, when it did not fail. -/
def cycleValue (r : Except String (Option String × TimerState)) :
    Option (Option String) :=
  match r with
  | .ok (v, _) => some v
  | .error _ => none

/-- The post-state of a `cycle_ranges` outcome, when it did not fail. -/
def cycleState (r : Except String (Option String × TimerState)) :
    Option TimerState :=
  match r with
  | .ok (_, st) => some st
  | .error _ => none

/-! ## Lemmas about the configuration store -/

lemma configSet_cons (hd : String × ConfigValue) (tl : Configs) (k : String)
    (v : ConfigValue) :
    configSet (hd :: tl) k v =
      if hd.1 = k then
        (k, v) :: List.map (fun p => if p.1 = k then (k, v) else p) tl
      else hd :: configSet tl k v := by
  unfold configSet
  by_cases h : hd.1 = k
  · simp [h]
  · by_cases h2 : List.any tl (fun p => decide (p.1 = k))
    · simp [List.any_cons, h, h2]
    · simp [List.any_cons, h, h2]

lemma configGet_cons (hd : String × ConfigValue) (tl : Configs) (k : String) :
    configGet (hd :: tl) k = if hd.1 = k then some hd.2 else configGet tl k := by
  unfold configGet
  by_cases h : hd.1 = k
  · rw [List.find?_cons_of_pos _ (by simpa using h)]
    simp [h]
  · rw [List.find?_cons_of_neg _ (by simpa using h), if_neg h]

lemma configGet_nil (k : String) : configGet [] k = none := rfl

lemma configGet_map_replace (tl : Configs) (k k2 : String) (v : ConfigValue)
    (h : k2 ≠ k) :
    configGet (List.map (fun p => if p.1 = k then (k, v) else p) tl) k2 =
      configGet tl k2 := by
  induction tl with
  | nil => rfl
  | cons hd tl ih =>
    by_cases hh : hd.1 = k
    · have h1 : ¬ (hd.1 = k2) := by rw [hh]; exact fun e => h e.symm
      simp only [List.map_cons, if_pos hh]
      rw [configGet_cons, configGet_cons, if_neg (by exact fun e => h (e.symm)),
        if_neg h1]
      exact ih
    · simp only [List.map_cons, if_neg hh]
      rw [configGet_cons, configGet_cons]
      by_cases h3 : hd.1 = k2
      · rw [if_pos h3, if_pos h3]
      · rw [if_neg h3, if_neg h3]; exact ih

lemma configGet_configSet_self (cs : Configs) (k : String) (v : ConfigValue) :
    configGet (configSet cs k v) k = some v := by
  induction cs with
  | nil =>
    have hbase : configSet ([] : Configs) k v = [(k, v)] := rfl
    rw [hbase, configGet_cons, if_pos rfl]
  | cons hd tl ih =>
    rw [configSet_cons]
    by_cases h : hd.1 = k
    · rw [if_pos h, configGet_cons, if_pos rfl]
    · rw [if_neg h, configGet_cons, if_neg h]; exact ih

lemma configGet_configSet_ne (cs : Configs) (k k2 : String) (v : ConfigValue)
    (h : k2 ≠ k) :
    configGet (configSet cs k v) k2 = configGet cs k2 := by
  induction cs with
  | nil =>
    have hbase : configSet ([] : Configs) k v = [(k, v)] := rfl
    rw [hbase, configGet_cons, if_neg (by exact fun e => h (e.symm))]
  | cons hd tl ih =>
    rw [configSet_cons]
    by_cases hh : hd.1 = k
    · have h1 : ¬ (hd.1 = k2) := by rw [hh]; exact fun e => h e.symm
      rw [if_pos hh, configGet_cons, if_neg (by exact fun e => h (e.symm)),
        configGet_cons, if_neg h1]
      exact configGet_map_replace tl k k2 v h
    · rw [if_neg hh, configGet_cons, configGet_cons]
      by_cases h3 : hd.1 = k2
      · rw [if_pos h3, if_pos h3]
      · rw [if_neg h3, if_neg h3]; exact ih

lemma currentRange_ne_cycleKey (category : String) :
    ("current_range" : String) ≠ category ++ "_cycle_index" := by
  intro h
  have hd : ('c' :: 'u' :: 'r' :: 'r' :: 'e' :: 'n' :: 't' :: '_' :: 'r' ::
      'a' :: 'n' :: 'g' :: 'e' :: ([] : List Char)) =
      category.data ++ ('_' :: 'c' :: 'y' :: 'c' :: 'l' :: 'e' :: '_' ::
      'i' :: 'n' :: 'd' :: 'e' :: 'x' :: ([] : List Char)) := by
    have h2 := congrArg String.data h
    simpa [String.data_append] using h2
  match hc : category.data with
  | [] =>
    rw [hc, List.nil_append] at hd
    injection hd with h1 _
    exact absurd h1 (by decide)
  | [a] =>
    rw [hc, List.cons_append, List.nil_append] at hd
    injection hd with _ h2
    injection h2 with h3 _
    exact absurd h3 (by decide)
  | a :: b :: rest =>
    rw [hc] at hd
    have hl := congrArg List.length hd
    simp [List.length_append] at hl

/-! ## Behaviour of `cycle_ranges` -/

/-- The position `cycle_ranges` selects: the persisted index when it is in
bounds for the freshly loaded category list, else 0. -/
def cyclePos (st : TimerState) (category : String) : Nat :=
  if readCycleIndex st.configs category <
      (get_category_ranges st.ranges category).length then
    readCycleIndex st.configs category
  else 0

lemma cyclePos_lt (st : TimerState) (category : String)
    (h : get_category_ranges st.ranges category ≠ []) :
    cyclePos st category < (get_category_ranges st.ranges category).length := by
  unfold cyclePos
  by_cases hi : readCycleIndex st.configs category <
      (get_category_ranges st.ranges category).length
  · simp [hi]
  · simp only [hi, if_false]
    cases hrs : get_category_ranges st.ranges category with
    | nil => exact absurd hrs h
    | cons a l => simp

/-- The database state `cycle_ranges` leaves behind when it selects `r`:
the `current_range` entry then the per-category index entry are upserted. -/
def cyclePost (st : TimerState) (category now : String) (r : NumberRange) :
    TimerState :=
  let cs1 := configSet st.configs "current_range"
    (ConfigValue.currentRange ⟨r.range_value, category, now⟩)
  let cs2 := configSet cs1 (category ++ "_cycle_index")
    (ConfigValue.cycleIndex ⟨cyclePos st category + 1, now⟩)
  { st with configs := cs2 }

lemma cycle_ranges_nonempty (st : TimerState) (category now : String)
    (h : get_category_ranges st.ranges category ≠ []) :
    ∃ r, (get_category_ranges st.ranges category).get? (cyclePos st category) =
        some r ∧
      cycle_ranges st category now =
        .ok (some r.range_value, cyclePost st category now r) := by
  have hlt := cyclePos_lt st category h
  refine ⟨(get_category_ranges st.ranges category).get ⟨cyclePos st category, hlt⟩,
    List.get?_eq_get hlt, ?_⟩
  unfold cycle_ranges
  have hne : (get_category_ranges st.ranges category).isEmpty = false := by
    cases hx : get_category_ranges st.ranges category with
    | nil => exact absurd hx h
    | cons a l => rfl
  simp only [hne, Bool.false_eq_true, if_false]
  have hpos : (if (get_category_ranges st.ranges category).length ≤
      readCycleIndex st.configs category then 0
      else readCycleIndex st.configs category) = cyclePos st category := by
    unfold cyclePos
    by_cases hi : readCycleIndex st.configs category <
        (get_category_ranges st.ranges category).length
    · rw [if_neg (by omega), if_pos hi]
    · rw [if_pos (by omega), if_neg hi]
  rw [hpos, List.get?_eq_get hlt]
  rfl

/-! ## Claims C1 and C2 -/

/-- C1: for every category, `cycle_ranges` with an empty loaded range list
returns the "no selection" sentinel `none` (unchanged state); with a
non-empty list of length `n` and persisted index `i` (0 when no entry
exists) it selects position `i` when `i < n` and position 0 otherwise,
persists the `current_range` entry (value, category, timestamp), persists
the per-category index entry as selected position + 1, and returns the
selected value; the `IndexError` branch is unreachable, so `cycle_ranges`
never fails with an index error even when the catalog shrank between
calls. -/
theorem C1_cycle_ranges_contract (st : TimerState) (category now : String) :
    (get_category_ranges st.ranges category = [] →
      cycle_ranges st category now = .ok (none, st)) ∧
    (get_category_ranges st.ranges category ≠ [] →
      cyclePos st category =
        (if readCycleIndex st.configs category <
            (get_category_ranges st.ranges category).length then
          readCycleIndex st.configs category
        else 0) ∧
      ∃ r, (get_category_ranges st.ranges category).get? (cyclePos st category) =
          some r ∧
        cycle_ranges st category now =
          .ok (some r.range_value, cyclePost st category now r) ∧
        configGet (cyclePost st category now r).configs "current_range" =
          some (.currentRange ⟨r.range_value, category, now⟩) ∧
        configGet (cyclePost st category now r).configs
            (category ++ "_cycle_index") =
          some (.cycleIndex ⟨cyclePos st category + 1, now⟩)) ∧
    (∃ out, cycle_ranges st category now = .ok out) := by
  have hEmpty : get_category_ranges st.ranges category = [] →
      cycle_ranges st category now = .ok (none, st) := by
    intro hE
    unfold cycle_ranges
    simp [hE]
  refine ⟨hEmpty, ?_, ?_⟩
  · intro h
    refine ⟨rfl, ?_⟩
    obtain ⟨r, hr, hcy⟩ := cycle_ranges_nonempty st category now h
    refine ⟨r, hr, hcy, ?_, ?_⟩
    · simp only [cyclePost]
      rw [configGet_configSet_ne _ _ _ _ (currentRange_ne_cycleKey category),
        configGet_configSet_self]
    · simp only [cyclePost]
      rw [configGet_configSet_self]
  · by_cases hcase : get_category_ranges st.ranges category = []
    · exact ⟨(none, st), hEmpty hcase⟩
    · obtain ⟨r, _, hcy⟩ := cycle_ranges_nonempty st category now hcase
      exact ⟨_, hcy⟩

/-- Concrete state for the C1 witness: three `favorites` ranges, no
persisted index. -/
def stC1w : TimerState :=
  ⟨[], [⟨1, "r0", "favorites", 3, none⟩, ⟨2, "r1", "favorites", 2, none⟩,
    ⟨3, "r2", "favorites", 1, none⟩]⟩

/-- Witness for C1: the first cycle over `favorites = [r0, r1, r2]` with no
persisted index returns `r0`. -/
theorem C1_witness :
    get_category_ranges stC1w.ranges "favorites" ≠ [] ∧
    cycleValue (cycle_ranges stC1w "favorites" "t1") = some (some "r0") := by
  have h : get_category_ranges stC1w.ranges "favorites" ≠ [] := by decide
  obtain ⟨-, r, hr, hcy, -, -⟩ :=
    (C1_cycle_ranges_contract stC1w "favorites" "t1").2.1 h
  have e : (get_category_ranges stC1w.ranges "favorites").get?
      (cyclePos stC1w "favorites") = some ⟨1, "r0", "favorites", 3, none⟩ := by
    decide
  rw [e] at hr
  injection hr with hr2
  refine ⟨h, ?_⟩
  rw [hcy, ← hr2]
  rfl

/-- Concrete state refuting C2 as stated: persisted index 4 over a
3-element `favorites` list. -/
def stC2x : TimerState :=
  ⟨[("favorites_cycle_index", .cycleIndex ⟨4, "t0"⟩)],
   [⟨1, "r0", "favorites", 3, none⟩, ⟨2, "r1", "favorites", 2, none⟩,
    ⟨3, "r2", "favorites", 1, none⟩]⟩

/-- Counterexample to C2 as stated: with persisted index 4 and a 3-element
list, `4 % 3 = 1` names `r1`, but the code wraps to position 0 and returns
`r0`; and after cycling a 1-element category the stored index equals the
list length 1, which is not `< 1`, refuting "stored index < n". -/
theorem C2_counterexample :
    (readCycleIndex stC2x.configs "favorites" = 4 ∧
      (get_category_ranges stC2x.ranges "favorites").length = 3 ∧
      (List.get? (get_category_ranges stC2x.ranges "favorites") (4 % 3)).map
          NumberRange.range_value = some "r1" ∧
      cycleValue (cycle_ranges stC2x "favorites" "t1") = some (some "r0") ∧
      ¬ cycleValue (cycle_ranges stC2x "favorites" "t1") = some (some "r1")) ∧
    ((cycleState (cycle_ranges
          (⟨[], [⟨7, "s0", "special", 1, none⟩]⟩ : TimerState) "special"
          "t1")).map (fun s => readCycleIndex s.configs "special") = some 1 ∧
      (get_category_ranges [⟨7, "s0", "special", 1, none⟩] "special").length
        = 1 ∧
      ¬ (1 : Nat) < 1) := by
  decide

/-- C2 (amended): for every category with a non-empty loaded list of length
`n` and stored index `i`, `cycle_ranges` selects position `i` when `i < n`
and position 0 otherwise (the index is wrapped, not reduced modulo `n`);
the selected position is always in bounds, and after a successful cycle
step the stored index equals selected position + 1, which is at most `n`
(it may equal `n`; the wrap to bounds happens at the next read, not at the
write). -/
theorem C2_amended_cycle_invariant (st : TimerState) (category now : String)
    (h : get_category_ranges st.ranges category ≠ []) :
    ∃ r, (get_category_ranges st.ranges category).get? (cyclePos st category) =
        some r ∧
      cycle_ranges st category now =
        .ok (some r.range_value, cyclePost st category now r) ∧
      cyclePos st category =
        (if readCycleIndex st.configs category <
            (get_category_ranges st.ranges category).length then
          readCycleIndex st.configs category
        else 0) ∧
      cyclePos st category < (get_category_ranges st.ranges category).length ∧
      readCycleIndex (cyclePost st category now r).configs category =
        cyclePos st category + 1 ∧
      readCycleIndex (cyclePost st category now r).configs category ≤
        (get_category_ranges st.ranges category).length := by
  obtain ⟨r, hr, hcy⟩ := cycle_ranges_nonempty st category now h
  have hlt := cyclePos_lt st category h
  have hread : readCycleIndex (cyclePost st category now r).configs category =
      cyclePos st category + 1 := by
    unfold readCycleIndex
    simp only [cyclePost]
    rw [configGet_configSet_self]
  exact ⟨r, hr, hcy, rfl, hlt, hread, by rw [hread]; omega⟩

/-- Concrete state for the C2 witness: one `favorites` range, no persisted
index. -/
def stC2w : TimerState := ⟨[], [⟨1, "r0", "favorites", 3, none⟩]⟩

/-- Witness for the amended C2: cycling the 1-element category stores
index 1 = selected position + 1. -/
theorem C2_witness :
    get_category_ranges stC2w.ranges "favorites" ≠ [] ∧
    (cycleState (cycle_ranges stC2w "favorites" "t1")).map
      (fun s => readCycleIndex s.configs "favorites") = some 1 := by
  have h : get_category_ranges stC2w.ranges "favorites" ≠ [] := by decide
  obtain ⟨r, hr, hcy, -, -, hread, -⟩ :=
    C2_amended_cycle_invariant stC2w "favorites" "t1" h
  have hpos : cyclePos stC2w "favorites" = 0 := by decide
  refine ⟨h, ?_⟩
  rw [hcy]
  show some (readCycleIndex (cyclePost stC2w "favorites" "t1" r).configs
    "favorites") = some 1
  rw [hread, hpos]

/-! ## Claim C8: the timer is one global record -/

/-- C8: `start_timer`, `stop_timer` and `get_status` all operate on the one
configuration entry keyed `"timer_status"`: starting a timer for `c2` after
one for `c1` overwrites `c1`'s record with `c2`'s, stopping with any
category argument deactivates whatever timer is active, and `get_status`
is a function of that single entry alone, so it reports at most one active
timer across all categories. -/
theorem C8_timer_single_global_record (st : TimerState) (c1 c2 : String)
    (i1 i2 : Int) (now1 next1 now2 next2 : String) :
    (configGet ((start_timer ((start_timer st c1 i1 now1 next1).1) c2 i2 now2
          next2).1).configs "timer_status" =
      some (.timer ⟨true, some c2, i2, some now2, none, some next2⟩)) ∧
    (get_status ((stop_timer ((start_timer st c1 i1 now1 next1).1) c2 now2).1) =
      ⟨false, none, 0, none, some now2, none⟩) ∧
    (∀ st1 st2 : TimerState,
      configGet st1.configs "timer_status" = configGet st2.configs "timer_status" →
      get_status st1 = get_status st2) := by
  refine ⟨?_, ?_, ?_⟩
  · simp only [start_timer, stop_timer]
    rw [configGet_configSet_self]
  · simp only [start_timer, stop_timer, get_status]
    rw [configGet_configSet_self]
  · intro st1 st2 h
    unfold get_status
    rw [h]

/-- Witness for C8: two states sharing the same `timer_status` entry (one
with an extra unrelated entry) get the same `get_status` report. -/
theorem C8_witness :
    configGet (⟨[("timer_status",
        .timer ⟨true, some "favorites", 2, some "n", none, some "x"⟩),
        ("other", .cycleIndex ⟨5, "t"⟩)], []⟩ : TimerState).configs
        "timer_status" =
      configGet (⟨[("timer_status",
        .timer ⟨true, some "favorites", 2, some "n", none, some "x"⟩)], []⟩ :
        TimerState).configs "timer_status" ∧
    get_status ⟨[("timer_status",
        .timer ⟨true, some "favorites", 2, some "n", none, some "x"⟩),
        ("other", .cycleIndex ⟨5, "t"⟩)], []⟩ =
      get_status ⟨[("timer_status",
        .timer ⟨true, some "favorites", 2, some "n", none, some "x"⟩)], []⟩ :=
  ⟨by decide,
    (C8_timer_single_global_record ⟨[], []⟩ "a" "b" 1 2 "n1" "x1" "n2" "x2").2.2
      _ _ (by decide)⟩

/-! ## `services/profile_service.py` -/

/-- Model of `datetime.fromisoformat` applied to `s.replace(" ", "T")` (the
fallback parse of `sessionExpires`): accepts `YYYY-MM-DD`,
`YYYY-MM-DDTHH:MM` and `YYYY-MM-DDTHH:MM:SS` with zero-padded two-digit
fields, calendar-validated. -/
def parseIsoLike (s : String) : Option PyDatetime := do
  let cs := (s.replace " " "T").toList
  let (y, cs) ← takeExactDigits 4 0 cs
  let cs ← expectChar '-' cs
  let (mo, cs) ← takeExactDigits 2 0 cs
  let cs ← expectChar '-' cs
  let (d, cs) ← takeExactDigits 2 0 cs
  let (h, mi, sec) ← (match cs with
    | [] => some ((0 : Nat), (0 : Nat), (0 : Nat))
    | 'T' :: cs2 => do
      let (h, cs3) ← takeExactDigits 2 0 cs2
      let cs4 ← expectChar ':' cs3
      let (mi, cs5) ← takeExactDigits 2 0 cs4
      match cs5 with
      | [] => some (h, mi, 0)
      | ':' :: cs6 => do
        let (sec, cs7) ← takeExactDigits 2 0 cs6
        if cs7 = [] then some (h, mi, sec) else none
      | _ => none
    | _ => none)
  if 1 ≤ mo ∧ mo ≤ 12 ∧ 1 ≤ d ∧ d ≤ daysInMonth y mo ∧
      h ≤ 23 ∧ mi ≤ 59 ∧ sec ≤ 59 then
    some ⟨y, mo, d, h, mi, sec⟩
  else none

/-- Modelled from the spec: the `APIProfile` ORM class is imported from
`models` by the services but is not declared under `src/models.py`; its
fields follow §3 of the spec ("Profile") and the `APIProfile` response
schema in `src/schemas.py`. Timestamps are abstract `Nat` clock values. -/
structure APIProfile where
  id : Nat
  name : String
  auth_token : String
  session_token : Option String
  username : Option String
  email : Option String
  session_expires : Option PyDatetime
  is_active : Bool
  is_logged_in : Bool
  login_status : String
  last_login_attempt : Option Nat
deriving DecidableEq

/-- The `api_profiles` table. -/
abbrev ProfileStore := List APIProfile

/-- The `data` section of a successful upstream login body
(`response_data.get("data", {})`). -/
structure LoginData where
  username : Option String
  email : Option String
  authToken : Option String
  sessionExpires : Option String
deriving DecidableEq

/-- A decoded upstream login JSON body; absent keys are `none`
(`response_data.get(...)`). -/
structure LoginBody where
  code : Option Int
  message : Option String
  data : Option LoginData
deriving DecidableEq

/-- Outcome of the outbound `client.post` to the login endpoint: either the
request raised (timeout/network error) before any response existed, or an
HTTP response arrived, whose JSON decoding may fail (`body = none`). -/
inductive HttpOutcome
  | exn (msg : String)
  | resp (status : Nat) (body : Option LoginBody) (text : String)
deriving DecidableEq

/-- The structured value `login_profile` returns on every path. -/
structure LoginResult where
  success : Bool
  message : String
deriving DecidableEq

/-- Embeds `ProfileService.deactivate_all_profiles`. -/
def deactivate_all_profiles (ps : ProfileStore) : ProfileStore :=
  List.map (fun p => { p with is_active := false }) ps

/-- Mutate the row `select(APIProfile).where(APIProfile.id == profile_id)`
finds (the first match). -/
def updateFirst (ps : ProfileStore) (pid : Nat) (f : APIProfile → APIProfile) :
    ProfileStore :=
  match ps with
  | [] => []
  | p :: rest => if p.id = pid then f p :: rest else p :: updateFirst rest pid f

/-- Embeds `ProfileService.activate_profile`: deactivate every profile first, then
activate the selected one when it exists (`True`), else report `False`. -/
def activate_profile (ps : ProfileStore) (pid : Nat) : ProfileStore × Bool :=
  match List.find? (fun p => p.id = pid) (deactivate_all_profiles ps) with
  | some _ =>
    (updateFirst (deactivate_all_profiles ps) pid
      (fun p => { p with is_active := true }), true)
  | none => (deactivate_all_profiles ps, false)

/-- Embeds `ProfileService.delete_profile`: remove the selected row when it
exists. -/
def delete_profile (ps : ProfileStore) (pid : Nat) : ProfileStore × Bool :=
  match ps with
  | [] => ([], false)
  | p :: rest =>
    if p.id = pid then (rest, true)
    else
      let r := delete_profile rest pid
      (p :: r.1, r.2)

/-- Field updates of the successful-login branch of `login_profile`. -/
def loginSuccessUpdate (b : LoginBody) (now : Nat) (p : APIProfile) :
    APIProfile :=
  let ds : LoginData := b.data.getD ⟨none, none, none, none⟩
  let se := match ds.sessionExpires with
    | none => p.session_expires
    | some s =>
      if s = "" then p.session_expires
      else
        match parseStrptimeYmdHMS s with
        | some dt => some dt
        | none =>
          match parseIsoLike s with
          | some dt => some dt
          | none => p.session_expires
  { p with
    last_login_attempt := some now
    is_logged_in := true
    login_status := "success"
    username := ds.username
    email := ds.email
    session_token := some (ds.authToken.getD p.auth_token)
    session_expires := se }

/-- Field updates of every failure branch of `login_profile` that runs
after an HTTP response was received: the attempt timestamp has already
been stamped. -/
def loginFailUpdateStamped (now : Nat) (p : APIProfile) : APIProfile :=
  { p with
    last_login_attempt := some now
    is_logged_in := false
    login_status := "failed" }

/-- Field updates of the network-failure branch: the exception fires inside
`client.post`, before `profile.last_login_attempt = datetime.utcnow()`
runs, so the attempt timestamp stays what it was. -/
def loginFailUpdateUnstamped (p : APIProfile) : APIProfile :=
  { p with is_logged_in := false, login_status := "failed" }

/-- Whether an upstream outcome is the successful-login shape: HTTP 200,
JSON decoded, body `code = 200` and `message = "Login successful"`. -/
def isLoginSuccessOutcome : HttpOutcome → Bool
  | .resp 200 (some b) _ =>
    decide (b.code = some 200) && decide (b.message = some "Login successful")
  | _ => false

/-- The branch `login_profile` takes once the selected profile exists:
which field update it applies and which structured result it returns, as a
function of the upstream outcome. -/
def loginStep (now : Nat) : HttpOutcome → (APIProfile → APIProfile) × LoginResult
  | .exn msg =>
    (loginFailUpdateUnstamped, ⟨false, "Login error: " ++ msg⟩)
  | .resp status body _text =>
    if status = 200 then
      match body with
      | none =>
        (loginFailUpdateStamped now, ⟨false, "Invalid JSON response"⟩)
      | some b =>
        if b.code = some 200 ∧ b.message = some "Login successful" then
          (loginSuccessUpdate b now, ⟨true, "Login successful"⟩)
        else
          (loginFailUpdateStamped now, ⟨false, b.message.getD "Login failed"⟩)
    else
      (loginFailUpdateStamped now, ⟨false, "HTTP Error " ++ toString status⟩)

/-- Embeds `ProfileService.login_profile`: total function of the store, the
selected id, the clock and the upstream outcome — totality models "never
raises past this boundary". -/
def login_profile (ps : ProfileStore) (pid : Nat) (now : Nat)
    (outcome : HttpOutcome) : ProfileStore × LoginResult :=
  match List.find? (fun p => p.id = pid) ps with
  | none => (ps, ⟨false, "Profile not found"⟩)
  | some _ =>
    (updateFirst ps pid (loginStep now outcome).1, (loginStep now outcome).2)

/-- Embeds `ProfileService.create_profile`: deactivate all profiles, insert the
new one as active (`login_status = "not_attempted"`), then auto-login
it. -/
def create_profile (ps : ProfileStore) (newId : Nat) (name tok : String)
    (now : Nat) (outcome : HttpOutcome) : ProfileStore × LoginResult :=
  let p : APIProfile :=
    ⟨newId, name, tok, none, none, none, none, true, false, "not_attempted",
      none⟩
  let ps2 := deactivate_all_profiles ps ++ [p]
  login_profile ps2 newId now outcome

/-- Number of rows with `is_active = true`. -/
def activeCount (ps : ProfileStore) : Nat :=
  (List.filter (fun p => p.is_active) ps).length

/-- A registry operation of `ProfileService`, its external inputs (fresh
id, clock, upstream outcome) made explicit. -/
inductive ProfileOp
  | create (newId : Nat) (name tok : String) (now : Nat) (outcome : HttpOutcome)
  | activate (pid : Nat)
  | deactivateAll
  | del (pid : Nat)
  | login (pid : Nat) (now : Nat) (outcome : HttpOutcome)

/-- Effect of one registry operation on the profile table. -/
def applyProfileOp (ps : ProfileStore) : ProfileOp → ProfileStore
  | .create newId name tok now outcome =>
    (create_profile ps newId name tok now outcome).1
  | .activate pid => (activate_profile ps pid).1
  | .deactivateAll => deactivate_all_profiles ps
  | .del pid => (delete_profile ps pid).1
  | .login pid now outcome => (login_profile ps pid now outcome).1

/-- Profile-table states reachable from the empty table through registry
operations. -/
inductive ReachableProfiles : ProfileStore → Prop
  | init : ReachableProfiles []
  | step (ps : ProfileStore) (op : ProfileOp) :
      ReachableProfiles ps → ReachableProfiles (applyProfileOp ps op)

/-! ## Lemmas about the profile registry -/

lemma activeCount_nil : activeCount [] = 0 := rfl

lemma activeCount_cons (p : APIProfile) (rest : ProfileStore) :
    activeCount (p :: rest) =
      (if p.is_active then 1 else 0) + activeCount rest := by
  unfold activeCount
  by_cases h : p.is_active
  · simp [List.filter_cons, h, Nat.add_comm]
  · simp [List.filter_cons, h]

lemma mem_deactivate_all (ps : ProfileStore) :
    ∀ p ∈ deactivate_all_profiles ps, p.is_active = false := by
  intro p hp
  obtain ⟨q, _, hq⟩ := List.mem_map.mp hp
  rw [← hq]

lemma activeCount_eq_zero_of_all_false (ps : ProfileStore)
    (h : ∀ p ∈ ps, p.is_active = false) : activeCount ps = 0 := by
  induction ps with
  | nil => rfl
  | cons p rest ih =>
    rw [activeCount_cons, h p (List.mem_cons_self p rest),
      ih (fun q hq => h q (List.mem_cons_of_mem p hq))]
    simp

lemma activeCount_deactivate_all (ps : ProfileStore) :
    activeCount (deactivate_all_profiles ps) = 0 :=
  activeCount_eq_zero_of_all_false _ (mem_deactivate_all ps)

lemma activeCount_append (a b : ProfileStore) :
    activeCount (a ++ b) = activeCount a + activeCount b := by
  unfold activeCount
  rw [List.filter_append, List.length_append]

lemma activeCount_updateFirst_preserve (ps : ProfileStore) (pid : Nat)
    (f : APIProfile → APIProfile)
    (hf : ∀ p, (f p).is_active = p.is_active) :
    activeCount (updateFirst ps pid f) = activeCount ps := by
  induction ps with
  | nil => rfl
  | cons p rest ih =>
    unfold updateFirst
    by_cases h : p.id = pid
    · rw [if_pos h, activeCount_cons, activeCount_cons, hf]
    · rw [if_neg h, activeCount_cons, activeCount_cons, ih]

lemma updateFirst_activate_spec (ps : ProfileStore) (pid : Nat)
    (h0 : ∀ p ∈ ps, p.is_active = false) (hex : ∃ p ∈ ps, p.id = pid) :
    activeCount
        (updateFirst ps pid (fun p => { p with is_active := true })) = 1 ∧
      ∀ q ∈ updateFirst ps pid (fun p => { p with is_active := true }),
        q.is_active = true → q.id = pid := by
  induction ps with
  | nil => obtain ⟨p, hp, _⟩ := hex; exact absurd hp (List.not_mem_nil p)
  | cons p rest ih =>
    unfold updateFirst
    by_cases h : p.id = pid
    · rw [if_pos h]
      constructor
      · rw [activeCount_cons,
          activeCount_eq_zero_of_all_false rest
            (fun q hq => h0 q (List.mem_cons_of_mem p hq))]
        simp
      · intro q hq hact
        rcases List.mem_cons.mp hq with he | hm
        · rw [he]; exact h
        · exact absurd hact (by rw [h0 q (List.mem_cons_of_mem p hm)]; simp)
    · rw [if_neg h]
      have hex2 : ∃ q ∈ rest, q.id = pid := by
        obtain ⟨q, hq, hid⟩ := hex
        rcases List.mem_cons.mp hq with he | hm
        · exact absurd hid (by rw [he]; exact h)
        · exact ⟨q, hm, hid⟩
      obtain ⟨ih1, ih2⟩ :=
        ih (fun q hq => h0 q (List.mem_cons_of_mem p hq)) hex2
      constructor
      · rw [activeCount_cons, h0 p (List.mem_cons_self p rest)]
        simpa using ih1
      · intro q hq hact
        rcases List.mem_cons.mp hq with he | hm
        · exact absurd hact (by rw [he, h0 p (List.mem_cons_self p rest)]; simp)
        · exact ih2 q hm hact

lemma activeCount_delete_le (ps : ProfileStore) (pid : Nat) :
    activeCount (delete_profile ps pid).1 ≤ activeCount ps := by
  induction ps with
  | nil => exact Nat.le_refl 0
  | cons p rest ih =>
    unfold delete_profile
    by_cases h : p.id = pid
    · rw [if_pos h]
      show activeCount rest ≤ activeCount (p :: rest)
      rw [activeCount_cons]
      omega
    · rw [if_neg h]
      show activeCount (p :: (delete_profile rest pid).1) ≤
        activeCount (p :: rest)
      rw [activeCount_cons, activeCount_cons]
      omega

lemma loginStep_active (now : Nat) (o : HttpOutcome) (q : APIProfile) :
    (((loginStep now o).1) q).is_active = q.is_active := by
  cases o with
  | exn msg => rfl
  | resp status body text =>
    simp only [loginStep]
    by_cases hs : status = 200
    · rw [if_pos hs]
      cases body with
      | none => rfl
      | some b =>
        by_cases hb : b.code = some 200 ∧ b.message = some "Login successful"
        · simp only [if_pos hb]; rfl
        · simp only [if_neg hb]; rfl
    · rw [if_neg hs]; rfl

lemma loginStep_id (now : Nat) (o : HttpOutcome) (q : APIProfile) :
    (((loginStep now o).1) q).id = q.id := by
  cases o with
  | exn msg => rfl
  | resp status body text =>
    simp only [loginStep]
    by_cases hs : status = 200
    · rw [if_pos hs]
      cases body with
      | none => rfl
      | some b =>
        by_cases hb : b.code = some 200 ∧ b.message = some "Login successful"
        · simp only [if_pos hb]; rfl
        · simp only [if_neg hb]; rfl
    · rw [if_neg hs]; rfl

lemma activeCount_login (ps : ProfileStore) (pid now : Nat)
    (o : HttpOutcome) :
    activeCount (login_profile ps pid now o).1 = activeCount ps := by
  unfold login_profile
  cases hf : List.find? (fun p => decide (p.id = pid)) ps with
  | none => rfl
  | some p =>
    exact activeCount_updateFirst_preserve ps pid _ (loginStep_active now o)

lemma activeCount_create (ps : ProfileStore) (newId : Nat) (name tok : String)
    (now : Nat) (o : HttpOutcome) :
    activeCount (create_profile ps newId name tok now o).1 = 1 := by
  unfold create_profile
  rw [activeCount_login, activeCount_append, activeCount_deactivate_all,
    activeCount_cons, activeCount_nil]
  rfl

lemma activeCount_activate_le (ps : ProfileStore) (pid : Nat) :
    activeCount (activate_profile ps pid).1 ≤ 1 := by
  unfold activate_profile
  cases hf : List.find? (fun p => decide (p.id = pid))
      (deactivate_all_profiles ps) with
  | none =>
    show activeCount (deactivate_all_profiles ps) ≤ 1
    rw [activeCount_deactivate_all]
    omega
  | some p =>
    have hmem : p ∈ deactivate_all_profiles ps := List.mem_of_find?_eq_some hf
    have hid : p.id = pid := by
      have h3 := List.find?_some hf
      simpa using h3
    have h2 := updateFirst_activate_spec (deactivate_all_profiles ps) pid
      (mem_deactivate_all ps) ⟨p, hmem, hid⟩
    show activeCount (updateFirst (deactivate_all_profiles ps) pid
      (fun p => { p with is_active := true })) ≤ 1
    rw [h2.1]

/-! ## Claims C3 and C9 -/

/-- C3: at most one profile is active at any time: every state reachable
through the registry operations (create, activate, deactivate-all, delete,
login) has at most one `is_active = true` row; every registry operation
preserves that bound; and activating an existing profile B (in particular
when some profile A was active) leaves exactly one active profile, every
active row then carrying B's id. -/
theorem C3_at_most_one_active (ps : ProfileStore) :
    (ReachableProfiles ps → activeCount ps ≤ 1) ∧
    (∀ op : ProfileOp, activeCount ps ≤ 1 →
      activeCount (applyProfileOp ps op) ≤ 1) ∧
    (∀ pidB : Nat, (∃ p ∈ ps, p.id = pidB) →
      activeCount (activate_profile ps pidB).1 = 1 ∧
      ∀ q ∈ (activate_profile ps pidB).1, q.is_active = true → q.id = pidB) := by
  have hstep : ∀ (qs : ProfileStore) (op : ProfileOp), activeCount qs ≤ 1 →
      activeCount (applyProfileOp qs op) ≤ 1 := by
    intro qs op hq
    cases op with
    | create newId name tok now outcome =>
      show activeCount (create_profile qs newId name tok now outcome).1 ≤ 1
      rw [activeCount_create]
    | activate pid => exact activeCount_activate_le qs pid
    | deactivateAll =>
      show activeCount (deactivate_all_profiles qs) ≤ 1
      rw [activeCount_deactivate_all]
      omega
    | del pid => exact le_trans (activeCount_delete_le qs pid) hq
    | login pid now outcome =>
      show activeCount (login_profile qs pid now outcome).1 ≤ 1
      rw [activeCount_login]
      exact hq
  have hreach : ∀ qs, ReachableProfiles qs → activeCount qs ≤ 1 := by
    intro qs hr
    induction hr with
    | init => exact Nat.zero_le 1
    | step ps2 op hr2 ih => exact hstep ps2 op ih
  refine ⟨hreach ps, hstep ps, ?_⟩
  intro pidB hex
  have hex2 : ∃ q ∈ deactivate_all_profiles ps, q.id = pidB := by
    obtain ⟨p, hp, hid⟩ := hex
    exact ⟨{ p with is_active := false }, List.mem_map.mpr ⟨p, hp, rfl⟩, hid⟩
  obtain ⟨q, hq, hqid⟩ := hex2
  obtain ⟨r, hr⟩ : ∃ r, List.find? (fun p => decide (p.id = pidB))
      (deactivate_all_profiles ps) = some r := by
    cases hf : List.find? (fun p => decide (p.id = pidB))
        (deactivate_all_profiles ps) with
    | some r => exact ⟨r, rfl⟩
    | none =>
      have h4 := List.find?_eq_none.mp hf q hq
      simp [hqid] at h4
  have h2 := updateFirst_activate_spec (deactivate_all_profiles ps) pidB
    (mem_deactivate_all ps) ⟨q, hq, hqid⟩
  unfold activate_profile
  rw [hr]
  exact ⟨h2.1, h2.2⟩

/-- Concrete store for the C3 witness: profile 1 active, profile 2
inactive. -/
def psC3w : ProfileStore :=
  [⟨1, "A", "tokenA", none, none, none, none, true, true, "success", none⟩,
   ⟨2, "B", "tokenB", none, none, none, none, false, false, "not_attempted",
     none⟩]

/-- Witness for C3: activating profile 2 while profile 1 is active leaves
exactly one active profile, and it is profile 2. -/
theorem C3_witness :
    (∃ p ∈ psC3w, p.id = 2) ∧
    (activeCount (activate_profile psC3w 2).1 = 1 ∧
      ∀ q ∈ (activate_profile psC3w 2).1, q.is_active = true → q.id = 2) :=
  ⟨by decide, (C3_at_most_one_active psC3w).2.2 2 (by decide)⟩

/-- C9: `activate_profile` called with an id matching no profile is not
atomic: it reports `false` (NotFound) but has already run the
deactivate-all step, so after the failed call every profile is inactive,
even if one was active before. -/
theorem C9_activate_missing_id_deactivates (ps : ProfileStore) (pid : Nat)
    (h : ∀ p ∈ ps, p.id ≠ pid) :
    (activate_profile ps pid).2 = false ∧
    (activate_profile ps pid).1 = deactivate_all_profiles ps ∧
    ∀ p ∈ (activate_profile ps pid).1, p.is_active = false := by
  have hnone : List.find? (fun p => decide (p.id = pid))
      (deactivate_all_profiles ps) = none := by
    rw [List.find?_eq_none]
    intro q hq
    obtain ⟨p0, hp0, he⟩ := List.mem_map.mp hq
    simp only [decide_eq_true_eq]
    rw [← he]
    exact h p0 hp0
  unfold activate_profile
  rw [hnone]
  exact ⟨rfl, rfl, mem_deactivate_all ps⟩

/-- Witness for C9: activating the absent id 99 while profile 1 is active
returns `false` and leaves no active profile. -/
theorem C9_witness :
    (∀ p ∈ [(⟨1, "A", "tokenA", none, none, none, none, true, true,
        "success", none⟩ : APIProfile)], p.id ≠ 99) ∧
    ((activate_profile [⟨1, "A", "tokenA", none, none, none, none, true,
        true, "success", none⟩] 99).2 = false ∧
      (activate_profile [⟨1, "A", "tokenA", none, none, none, none, true,
        true, "success", none⟩] 99).1 =
        deactivate_all_profiles [⟨1, "A", "tokenA", none, none, none, none,
          true, true, "success", none⟩] ∧
      ∀ p ∈ (activate_profile [⟨1, "A", "tokenA", none, none, none, none,
        true, true, "success", none⟩] 99).1, p.is_active = false) :=
  ⟨by decide, C9_activate_missing_id_deactivates _ 99 (by decide)⟩

/-! ## Claim C5 -/

lemma find?_updateFirst (ps : ProfileStore) (pid : Nat)
    (f : APIProfile → APIProfile) (hf : ∀ p, (f p).id = p.id) :
    List.find? (fun p => p.id = pid) (updateFirst ps pid f) =
      (List.find? (fun p => p.id = pid) ps).map f := by
  induction ps with
  | nil => rfl
  | cons p rest ih =>
    unfold updateFirst
    by_cases h : p.id = pid
    · rw [if_pos h, List.find?_cons_of_pos _ (by simp [hf, h]),
        List.find?_cons_of_pos _ (by simp [h])]
      rfl
    · rw [if_neg h, List.find?_cons_of_neg _ (by simp [h]),
        List.find?_cons_of_neg _ (by simp [h])]
      exact ih

lemma loginStep_resp_stamps (now status : Nat) (body : Option LoginBody)
    (text : String) (q : APIProfile) :
    (((loginStep now (.resp status body text)).1) q).last_login_attempt =
      some now := by
  simp only [loginStep]
  by_cases hs : status = 200
  · rw [if_pos hs]
    cases body with
    | none => rfl
    | some b =>
      by_cases hb : b.code = some 200 ∧ b.message = some "Login successful"
      · simp only [if_pos hb]; rfl
      · simp only [if_neg hb]; rfl
  · rw [if_neg hs]; rfl

lemma loginStep_fail_flags (now : Nat) (o : HttpOutcome)
    (h : isLoginSuccessOutcome o = false) (q : APIProfile) :
    (((loginStep now o).1) q).is_logged_in = false ∧
    (((loginStep now o).1) q).login_status = "failed" ∧
    (loginStep now o).2.success = false := by
  cases o with
  | exn msg => exact ⟨rfl, rfl, rfl⟩
  | resp status body text =>
    simp only [loginStep]
    by_cases hs : status = 200
    · subst hs
      rw [if_pos rfl]
      cases body with
      | none => exact ⟨rfl, rfl, rfl⟩
      | some b =>
        have hb : ¬ (b.code = some 200 ∧ b.message = some "Login successful") := by
          intro hcontra
          simp only [isLoginSuccessOutcome, hcontra.1, hcontra.2] at h
          simp at h
        simp only [if_neg hb]
        refine ⟨?_, ?_, ?_⟩ <;> trivial
    · rw [if_neg hs]
      exact ⟨rfl, rfl, rfl⟩

/-- Counterexample to C5 as stated: on a network failure (`client.post`
raises, so no response object ever exists) the line
`profile.last_login_attempt = datetime.utcnow()` is never reached; the
profile keeps `last_login_attempt = none` where the claim demands a
stamp. -/
theorem C5_counterexample :
    ((login_profile [⟨1, "A", "tok", none, none, none, none, true, false,
        "not_attempted", none⟩] 1 5 (.exn "timeout")).1.map
      (fun p => p.last_login_attempt)) = [none] ∧
    (login_profile [⟨1, "A", "tok", none, none, none, none, true, false,
        "not_attempted", none⟩] 1 5 (.exn "timeout")).2.success = false ∧
    ¬ ((login_profile [⟨1, "A", "tok", none, none, none, none, true, false,
        "not_attempted", none⟩] 1 5 (.exn "timeout")).1.map
      (fun p => p.last_login_attempt)) = [some 5] := by
  decide

/-- C5 (amended): for every `login_profile` outcome other than HTTP 200
with body `code = 200`, `message = "Login successful"` — non-200 status,
malformed JSON, upstream-reported failure, or network failure — the
selected profile ends with `is_logged_in = false` and
`login_status = "failed"` and the call returns a structured failure value
(the embedding is a total function, modelling "never raises past this
boundary"); `last_login_attempt` is stamped whenever an HTTP response was
received (success or failure), but on a network failure the stamp line is
never reached and `last_login_attempt` is unchanged. -/
theorem C5_login_failure_contract (ps : ProfileStore) (pid now : Nat)
    (outcome : HttpOutcome) (p : APIProfile)
    (hp : List.find? (fun q => q.id = pid) ps = some p) :
    (isLoginSuccessOutcome outcome = false →
      ∃ p2, List.find? (fun q => q.id = pid)
          (login_profile ps pid now outcome).1 = some p2 ∧
        p2.is_logged_in = false ∧ p2.login_status = "failed" ∧
        (login_profile ps pid now outcome).2.success = false) ∧
    (∀ status body text, outcome = .resp status body text →
      ∃ p2, List.find? (fun q => q.id = pid)
          (login_profile ps pid now outcome).1 = some p2 ∧
        p2.last_login_attempt = some now) ∧
    (∀ msg, outcome = .exn msg →
      ∃ p2, List.find? (fun q => q.id = pid)
          (login_profile ps pid now outcome).1 = some p2 ∧
        p2.last_login_attempt = p.last_login_attempt) := by
  have hfind := find?_updateFirst ps pid (loginStep now outcome).1
    (loginStep_id now outcome)
  have hlp : login_profile ps pid now outcome =
      (updateFirst ps pid (loginStep now outcome).1,
        (loginStep now outcome).2) := by
    unfold login_profile
    rw [hp]
  refine ⟨?_, ?_, ?_⟩
  · intro hfail
    obtain ⟨h1, h2, h3⟩ := loginStep_fail_flags now outcome hfail p
    refine ⟨(loginStep now outcome).1 p, ?_, h1, h2, ?_⟩
    · rw [hlp]
      show List.find? (fun q => q.id = pid)
        (updateFirst ps pid (loginStep now outcome).1) = _
      rw [hfind, hp]
      rfl
    · rw [hlp]
      exact h3
  · intro status body text he
    refine ⟨(loginStep now outcome).1 p, ?_, ?_⟩
    · rw [hlp]
      show List.find? (fun q => q.id = pid)
        (updateFirst ps pid (loginStep now outcome).1) = _
      rw [hfind, hp]
      rfl
    · rw [he]
      exact loginStep_resp_stamps now status body text p
  · intro msg he
    refine ⟨(loginStep now outcome).1 p, ?_, ?_⟩
    · rw [hlp]
      show List.find? (fun q => q.id = pid)
        (updateFirst ps pid (loginStep now outcome).1) = _
      rw [hfind, hp]
      rfl
    · rw [he]
      rfl

/-- Concrete profile for the C5 witness. -/
def pC5w : APIProfile :=
  ⟨1, "A", "tok", none, none, none, none, true, false, "not_attempted", none⟩

/-- Witness for the amended C5: an HTTP 500 with undecodable body marks the
profile failed and returns a structured failure. -/
theorem C5_witness :
    List.find? (fun q => q.id = 1) [pC5w] = some pC5w ∧
    isLoginSuccessOutcome (.resp 500 none "err") = false ∧
    (∃ p2, List.find? (fun q => q.id = 1)
        (login_profile [pC5w] 1 7 (.resp 500 none "err")).1 = some p2 ∧
      p2.is_logged_in = false ∧ p2.login_status = "failed" ∧
      (login_profile [pC5w] 1 7 (.resp 500 none "err")).2.success = false) :=
  ⟨by decide, by decide,
    (C5_login_failure_contract [pC5w] 1 7 (.resp 500 none "err") pC5w
      (by decide)).1 (by decide)⟩

/-! ## Claim C4: duplicate ranges -/

/-- Embeds `POST /ranges` (`routers/admin.py::create_range`): reject with the
HTTP 400 `DuplicateRange` error when a row with the same
(range_value, category) pair exists, else insert the new row and return
it. -/
def create_range (ranges : List NumberRange) (newId upd : Nat)
    (range_value category : String) (extra : Option String) :
    Except String (List NumberRange × NumberRange) :=
  if ranges.any (fun r => r.range_value = range_value ∧ r.category = category)
  then
    .error "Range already exists in this category"
  else
    .ok (ranges ++ [⟨newId, range_value, category, upd, extra⟩],
      ⟨newId, range_value, category, upd, extra⟩)

/-- Embeds `RangeService.add_to_category`: `False` (and no insert) when the
(range_value, category) pair already exists, else insert and `True`; the
"remove from other categories" statement in the source is a bare select
with no effect; `extra_data or` the-empty-dict defaults the annotation,
rendered `""` here. -/
def add_to_category (ranges : List NumberRange) (newId upd : Nat)
    (range_value category : String) (extra : Option String) :
    List NumberRange × Bool :=
  if ranges.any (fun r => r.range_value = range_value ∧ r.category = category)
  then
    (ranges, false)
  else
    (ranges ++ [⟨newId, range_value, category, upd, some (extra.getD "")⟩],
      true)

/-- C4: `create_range` fails with `DuplicateRange` (inserting nothing)
exactly when a row with the same (range_value, category) pair exists, and
otherwise inserts; `add_to_category` reports `False` under exactly the
same condition; in particular the same value under a fresh category always
succeeds and inserts. -/
theorem C4_duplicate_range (ranges : List NumberRange) (newId upd : Nat)
    (v c : String) (extra : Option String) :
    ((∃ r ∈ ranges, r.range_value = v ∧ r.category = c) ↔
      create_range ranges newId upd v c extra =
        .error "Range already exists in this category") ∧
    (¬ (∃ r ∈ ranges, r.range_value = v ∧ r.category = c) →
      create_range ranges newId upd v c extra =
        .ok (ranges ++ [⟨newId, v, c, upd, extra⟩],
          ⟨newId, v, c, upd, extra⟩)) ∧
    ((add_to_category ranges newId upd v c extra).2 = false ↔
      ∃ r ∈ ranges, r.range_value = v ∧ r.category = c) ∧
    ((∀ r ∈ ranges, r.category ≠ c) →
      create_range ranges newId upd v c extra =
        .ok (ranges ++ [⟨newId, v, c, upd, extra⟩],
          ⟨newId, v, c, upd, extra⟩) ∧
      (add_to_category ranges newId upd v c extra).2 = true) := by
  have hbool : List.any ranges
      (fun r => decide (r.range_value = v ∧ r.category = c)) = true ↔
      ∃ r ∈ ranges, r.range_value = v ∧ r.category = c := by
    simp
  by_cases hex : ∃ r ∈ ranges, r.range_value = v ∧ r.category = c
  · have hd := hbool.mpr hex
    unfold create_range add_to_category
    rw [if_pos hd, if_pos hd]
    refine ⟨⟨fun _ => rfl, fun _ => hex⟩, fun hne => absurd hex hne,
      ⟨fun _ => hex, fun _ => rfl⟩, ?_⟩
    intro hall
    obtain ⟨r, hrm, _, hrc⟩ := hex
    exact absurd hrc (hall r hrm)
  · have hd : ¬ (List.any ranges
        (fun r => decide (r.range_value = v ∧ r.category = c)) = true) :=
      fun he => hex (hbool.mp he)
    unfold create_range add_to_category
    rw [if_neg hd, if_neg hd]
    refine ⟨⟨fun he => absurd he hex, fun he => ?_⟩, fun _ => rfl,
      ⟨fun he => ?_, fun he => absurd he hex⟩, fun _ => ⟨rfl, rfl⟩⟩
    · exact absurd he (by simp)
    · exact absurd he (by simp)

/-- Witness for C4: adding value "X" under `recents` while it already
exists under `favorites` succeeds in both entry points. -/
theorem C4_witness :
    (∀ r ∈ [(⟨1, "X", "favorites", 1, none⟩ : NumberRange)],
      r.category ≠ "recents") ∧
    (create_range [⟨1, "X", "favorites", 1, none⟩] 2 5 "X" "recents" none =
      .ok ([⟨1, "X", "favorites", 1, none⟩] ++
          [⟨2, "X", "recents", 5, none⟩], ⟨2, "X", "recents", 5, none⟩) ∧
      (add_to_category [⟨1, "X", "favorites", 1, none⟩] 2 5 "X" "recents"
        none).2 = true) :=
  ⟨by decide,
    (C4_duplicate_range [⟨1, "X", "favorites", 1, none⟩] 2 5 "X" "recents"
      none).2.2.2 (by decide)⟩

/-! ## `services/external_api.py` -/

/-- An element of the upstream `results` array; absent JSON keys are
`none` (`result.get(...)`). -/
structure AccessEntry where
  testNumber : Option String
  comment : Option String
  datetimeField : Option String
  rate : Option String
  currency : Option String
deriving DecidableEq

/-- The sort key of `get_access_list`:
`dt.strptime(x.get("Datetime", "1900-01-01 00:00:00"), "%Y-%m-%d %H:%M:%S")`;
the default covers an absent `Datetime` key, and `none` is the
`ValueError` a present but malformed string raises. -/
def accessKey (e : AccessEntry) : Option PyDatetime :=
  parseStrptimeYmdHMS (e.datetimeField.getD "1900-01-01 00:00:00")

/-- Numeric ordering key of an entry whose parse succeeded. -/
def accessKeyNat (e : AccessEntry) : Nat :=
  ((accessKey e).getD ⟨0, 0, 0, 0, 0, 0⟩).key

/-- Model of `results.sort(key=..., reverse=True)` inside `try/except: pass`:
CPython computes every key before it reorders anything, so when any
entry's key raises the list is restored unchanged and the exception is
swallowed; otherwise the sort is stable and descending (`reverse=True`
keeps equal keys in their original order, which a stable sort on the
reversed comparison reproduces). -/
def sortAccessResults (results : List AccessEntry) : List AccessEntry :=
  if results.all (fun e => (accessKey e).isSome) then
    List.insertionSort (fun a b => accessKeyNat b ≤ accessKeyNat a) results
  else results

/-- An element of the returned `working_numbers` list (all fields carried
over with `.get(..., "")` defaults, the test number stripped). -/
structure WorkingNumber where
  test_number : String
  comment : String
  datetime : String
  rate : String
  currency : String
deriving DecidableEq

/-- Python `str.strip()`: drop leading and trailing whitespace. -/
def pyStrip (s : String) : String :=
  ⟨((s.data.dropWhile Char.isWhitespace).reverse.dropWhile
    Char.isWhitespace).reverse⟩

/-- The filter/projection step of `get_access_list`: keep entries whose
stripped `"Test number"` is non-empty, carrying the stripped value. -/
def toWorkingNumber (e : AccessEntry) : Option WorkingNumber :=
  if pyStrip (e.testNumber.getD "") = "" then none
  else some ⟨pyStrip (e.testNumber.getD ""), e.comment.getD "",
    e.datetimeField.getD "", e.rate.getD "", e.currency.getD ""⟩

/-- The success payload of `get_access_list`. -/
structure AccessListOk where
  working_numbers : List WorkingNumber
  total_results : Nat
deriving DecidableEq

/-- Result of `get_access_list`: success payload or soft error. -/
inductive AccessListResult
  | ok (r : AccessListOk)
  | err (e : String)
deriving DecidableEq

/-- The success-path body of `get_access_list`: sort (or abandon the
sort), filter blank test numbers, truncate to the latest 10, and report
the length of the full upstream `results` array. -/
def processAccessResults (results : List AccessEntry) : AccessListOk :=
  ⟨((sortAccessResults results).filterMap toWorkingNumber).take 10,
    results.length⟩

/-- A decoded access-list JSON body: the truthiness of `"success"` and the
`"results"` array when the key is present. -/
structure AccessBody where
  success : Bool
  results : Option (List AccessEntry)
deriving DecidableEq

/-- Upstream outcome of the access-list POST. -/
inductive AccessOutcome
  | exn (msg : String)
  | resp (status : Nat) (body : Option AccessBody)
deriving DecidableEq

/-- Embeds the `ExternalAPIService.get_access_list` response handling: transport
errors, non-200 statuses and undecodable or ill-shaped bodies are soft
`err` values. -/
def get_access_list (o : AccessOutcome) : AccessListResult :=
  match o with
  | .exn msg => .err msg
  | .resp status body =>
    if status = 200 then
      match body with
      | none => .err "JSON decode error"
      | some b =>
        if b.success ∧ b.results.isSome then
          .ok (processAccessResults (b.results.getD []))
        else .err "Invalid response format"
    else .err ("HTTP " ++ toString status)

/-! ## Claims C6 and C10 -/

/-- Counterexample to C6 as stated: `"1900-01-01 00:00:00"` is only the
default for an *absent* `Datetime` key; a present but malformed string
makes the key function raise, which aborts the whole sort
(`except Exception: pass`) and leaves the results in upstream order. With
input order [B: 2024-01-01, C: malformed, A: 2024-01-02] the output is
[b, c, a], not the claimed sorted [a, b, c]. -/
theorem C6_counterexample :
    accessKey ⟨some "c", none, some "not-a-date", none, none⟩ = none ∧
    (processAccessResults
        [⟨some "b", none, some "2024-01-01 00:00:00", none, none⟩,
         ⟨some "c", none, some "not-a-date", none, none⟩,
         ⟨some "a", none, some "2024-01-02 00:00:00", none, none⟩]
      ).working_numbers.map (fun w => w.test_number) = ["b", "c", "a"] ∧
    ¬ (processAccessResults
        [⟨some "b", none, some "2024-01-01 00:00:00", none, none⟩,
         ⟨some "c", none, some "not-a-date", none, none⟩,
         ⟨some "a", none, some "2024-01-02 00:00:00", none, none⟩]
      ).working_numbers.map (fun w => w.test_number) = ["a", "b", "c"] := by
  decide

/-- C6 (amended): when every entry's `Datetime` (absent keys defaulting to
`"1900-01-01 00:00:00"`, which sorts last) parses, the results are sorted
by it in descending order; if any present `Datetime` string fails to
parse, the sort is abandoned and the results keep their upstream order;
the output is always the first 10 of the filtered sequence; and on the
spec's example with C's `Datetime` absent (treated as the 1900 epoch and
sorting last) the output order is [A, B, C]. -/
theorem C6_access_list_sorting (results : List AccessEntry) :
    ((∀ e ∈ results, (accessKey e).isSome) →
      List.Sorted (fun a b => accessKeyNat b ≤ accessKeyNat a)
        (sortAccessResults results) ∧
      (sortAccessResults results).Perm results) ∧
    ((∃ e ∈ results, accessKey e = none) →
      sortAccessResults results = results) ∧
    (processAccessResults results).working_numbers =
      ((sortAccessResults results).filterMap toWorkingNumber).take 10 ∧
    (processAccessResults
        [⟨some "b", none, some "2024-01-01 00:00:00", none, none⟩,
         ⟨some "c", none, none, none, none⟩,
         ⟨some "a", none, some "2024-01-02 00:00:00", none, none⟩]
      ).working_numbers.map (fun w => w.test_number) = ["a", "b", "c"] := by
  refine ⟨?_, ?_, rfl, by decide⟩
  · intro h
    have hall : results.all (fun e => (accessKey e).isSome) = true := by
      rw [List.all_eq_true]
      intro e he
      exact h e he
    unfold sortAccessResults
    rw [if_pos hall]
    haveI : IsTotal AccessEntry (fun a b => accessKeyNat b ≤ accessKeyNat a) :=
      ⟨fun a b => (Nat.le_total (accessKeyNat b) (accessKeyNat a)).elim
        Or.inl Or.inr⟩
    haveI : IsTrans AccessEntry (fun a b => accessKeyNat b ≤ accessKeyNat a) :=
      ⟨fun _ _ _ h1 h2 => Nat.le_trans h2 h1⟩
    exact ⟨List.sorted_insertionSort _ results,
      List.perm_insertionSort _ results⟩
  · intro hbad
    obtain ⟨e, he, hk⟩ := hbad
    unfold sortAccessResults
    rw [if_neg]
    intro hall
    have h2 := List.all_eq_true.mp hall e he
    rw [hk] at h2
    exact absurd h2 (by simp)

/-- Concrete list for the C6 witness: two entries with parsable dates, out
of order. -/
def accessC6w : List AccessEntry :=
  [⟨some "b", none, some "2024-01-01 00:00:00", none, none⟩,
   ⟨some "a", none, some "2024-01-02 00:00:00", none, none⟩]

/-- Witness for the amended C6: with every date parsable the sort runs,
descending. -/
theorem C6_witness :
    (∀ e ∈ accessC6w, (accessKey e).isSome) ∧
    (List.Sorted (fun a b => accessKeyNat b ≤ accessKeyNat a)
        (sortAccessResults accessC6w) ∧
      (sortAccessResults accessC6w).Perm accessC6w) :=
  ⟨by decide, (C6_access_list_sorting accessC6w).1 (by decide)⟩

/-- Concrete upstream list for C10: 12 results, 4 of them with an absent,
empty or whitespace-only test number. -/
def accessC10x : List AccessEntry :=
  [⟨some "n1", none, none, none, none⟩, ⟨none, none, none, none, none⟩,
   ⟨some "n2", none, none, none, none⟩, ⟨some "", none, none, none, none⟩,
   ⟨some "n3", none, none, none, none⟩, ⟨some "  ", none, none, none, none⟩,
   ⟨some "n4", none, none, none, none⟩, ⟨some "n5", none, none, none, none⟩,
   ⟨some "n6", none, none, none, none⟩, ⟨some "n7", none, none, none, none⟩,
   ⟨some "n8", none, none, none, none⟩, ⟨some "\t", none, none, none, none⟩]

/-- C10: every returned working number has a non-empty (stripped) test
number; entries with an absent, empty or whitespace-only `"Test number"`
are dropped before the 10-item truncation while `total_results` still
counts all upstream results, so a 12-result upstream answer can produce
only 8 working numbers. -/
theorem C10_working_numbers_nonempty (results : List AccessEntry) :
    (∀ w ∈ (processAccessResults results).working_numbers,
      w.test_number ≠ "") ∧
    (processAccessResults results).total_results = results.length ∧
    (processAccessResults results).working_numbers =
      ((sortAccessResults results).filterMap toWorkingNumber).take 10 ∧
    ((processAccessResults accessC10x).working_numbers.length = 8 ∧
      (processAccessResults accessC10x).total_results = 12 ∧
      10 < accessC10x.length ∧ (8 : Nat) < 10) := by
  refine ⟨?_, rfl, rfl, by decide⟩
  intro w hw
  have hw2 : w ∈ (sortAccessResults results).filterMap toWorkingNumber :=
    List.mem_of_mem_take hw
  obtain ⟨e, _, he⟩ := List.mem_filterMap.mp hw2
  by_cases ht : pyStrip (e.testNumber.getD "") = ""
  · unfold toWorkingNumber at he
    rw [if_pos ht] at he
    exact absurd he (by simp)
  · unfold toWorkingNumber at he
    rw [if_neg ht] at he
    injection he with he2
    rw [← he2]
    exact ht

/-- Witness for C10: the first working number of the concrete 12-entry
list is "n1", non-empty. -/
theorem C10_witness :
    (⟨"n1", "", "", "", ""⟩ : WorkingNumber) ∈
      (processAccessResults accessC10x).working_numbers ∧
    (⟨"n1", "", "", "", ""⟩ : WorkingNumber).test_number ≠ "" :=
  ⟨by decide, (C10_working_numbers_nonempty accessC10x).1 _ (by decide)⟩

/-! ## Claim C7: balance summary -/

/-- A decoded element of the balance summary array; absent keys are `none`
(`item.get(...)`). JSON numbers are modelled as exact rationals. -/
structure BalanceEntry where
  amount : Option ℚ
  otp : Option ℚ
  date : Option String
deriving DecidableEq

/-- The decoded balance payload: a JSON array, or anything else. -/
inductive BalancePayload
  | arr (entries : List BalanceEntry)
  | nonArray
deriving DecidableEq

/-- Python `round(x, 3)` at integer scale: round half to even. -/
def roundHalfEven (q : ℚ) : ℤ :=
  if q - ⌊q⌋ < 1/2 then ⌊q⌋
  else if 1/2 < q - ⌊q⌋ then ⌊q⌋ + 1
  else if ⌊q⌋ % 2 = 0 then ⌊q⌋ else ⌊q⌋ + 1

/-- Python `round(x, 3)`: round half to even at the third decimal. -/
def round3 (q : ℚ) : ℚ := (roundHalfEven (q * 1000) : ℚ) / 1000

/-- The success payload of `get_balance`. -/
structure BalanceOk where
  today_balance : ℚ
  today_otp : ℚ
  today_date : String
  total_balance : ℚ
deriving DecidableEq

/-- Result of `get_balance`: success payload or soft error. -/
inductive BalanceResult
  | ok (r : BalanceOk)
  | err (e : String)
deriving DecidableEq

/-- The 200-response handling of `ExternalAPIService.get_balance`: a
non-empty array is summarized from its first element (`balance_data[0]`)
and the rounded sum of every entry's `amount`; an empty array or a
non-array payload is the soft failure, with no exception raised. -/
def get_balance_process (p : BalancePayload) : BalanceResult :=
  match p with
  | .arr [] => .err "No balance data available"
  | .nonArray => .err "No balance data available"
  | .arr (e :: rest) =>
    .ok ⟨e.amount.getD 0, e.otp.getD 0, e.date.getD "",
      round3 ((List.map (fun it => it.amount.getD 0) (e :: rest)).sum)⟩

/-- C7: for every non-empty decoded array, `get_balance` succeeds with
`today_balance`, `today_otp` and `today_date` taken from the entry at
index 0 and `total_balance` the 3-decimal rounding of the sum of every
entry's `amount` (absent amounts read as 0); amounts [1.1, 2.229] give
`total_balance = 3.329` and `today_balance = 1.1`; an empty array or a
non-array payload yields the soft failure value (the embedding is total:
no exception escapes). -/
theorem C7_balance_summary (e : BalanceEntry) (rest : List BalanceEntry) :
    (get_balance_process (.arr (e :: rest)) =
      .ok ⟨e.amount.getD 0, e.otp.getD 0, e.date.getD "",
        round3 ((List.map (fun it => it.amount.getD 0) (e :: rest)).sum)⟩) ∧
    (get_balance_process (.arr [⟨some (11/10), none, none⟩,
        ⟨some (2229/1000), none, none⟩]) =
      .ok ⟨11/10, 0, "", 3329/1000⟩) ∧
    (get_balance_process (.arr []) = .err "No balance data available" ∧
      get_balance_process .nonArray = .err "No balance data available") := by
  refine ⟨rfl, ?_, rfl, rfl⟩
  show BalanceResult.ok ⟨11/10, 0, "",
      round3 ((List.map (fun it => it.amount.getD 0)
        [(⟨some (11/10), none, none⟩ : BalanceEntry),
         ⟨some (2229/1000), none, none⟩]).sum)⟩ =
    .ok ⟨11/10, 0, "", 3329/1000⟩
  have hsum : (List.map (fun it => it.amount.getD 0)
      [(⟨some (11/10), none, none⟩ : BalanceEntry),
       ⟨some (2229/1000), none, none⟩]).sum = 3329/1000 := by
    simp
    norm_num
  rw [hsum]
  have hr : round3 (3329/1000) = 3329/1000 := by
    unfold round3 roundHalfEven
    norm_num
  rw [hr]
